import Mathlib

/-! Verification development for the supplier-catalog extraction services
of this repository: the document-catalog extractor
(bulk_pdf_extractor.py), the simple web crawler (simple_web_crawler.py)
and the Scrapy-based bulk crawler (bulk_web_crawler.py).

Python strings are modelled as Lean `String`, None-able values as
`Option`, dict records as structures with optional fields.  Numeric
values captured by the regexes are carried as the matched numeric token
(a `String`) or as `Int`/`Rat` where the source converts with int/float
and the claims compare numbers.  The out-of-scope collaborators
(document decoding, DOM queries, HTTP transport) are modelled as inputs:
a decoded page is the list of texts, cell grids or selector hits it
yields, and a fetch is a function from URL to an optional page. -/

/-- ASCII lower-casing of one character, as Python str.lower acts on ASCII text. -/
def toLowerChar (c : Char) : Char :=
  if 'A' ≤ c ∧ c ≤ 'Z' then Char.ofNat (c.toNat + 32) else c

/-- ASCII upper-casing of one character. -/
def toUpperChar (c : Char) : Char :=
  if 'a' ≤ c ∧ c ≤ 'z' then Char.ofNat (c.toNat - 32) else c

/-- The characters matched by the regex class for whitespace (ASCII range). -/
def isSpaceChar (c : Char) : Bool :=
  c == ' ' || c == '\t' || c == '\n' || c == '\r' || c == '\x0b' || c == '\x0c'

/-- Python str.lower on a string (ASCII model). -/
def pyLower (s : String) : String := String.mk (s.toList.map toLowerChar)

/-- Python str.strip: remove leading and trailing whitespace. -/
def pyStrip (s : String) : String :=
  String.mk (((s.toList.dropWhile isSpaceChar).reverse.dropWhile isSpaceChar).reverse)

/-- Helper for the Python substring test: does the needle occur in the haystack? -/
def subScan (needle : List Char) : List Char → Bool
  | [] => needle.isEmpty
  | c :: t => needle.isPrefixOf (c :: t) || subScan needle t

/-- Python substring containment test (the `in` operator on strings). -/
def containsTok (hay needle : String) : Bool := subScan needle.toList hay.toList

/-- Python `any(keyword in h for keyword in keys)`. -/
def hasAnyKeyword (h : String) (keys : List String) : Bool :=
  keys.any (fun k => containsTok h k)

/-- Does `hay` begin with the literal `lit`, compared case-insensitively (ASCII)? -/
def ciBeginsWith (lit : String) (hay : List Char) : Bool :=
  (lit.toList.map toLowerChar).isPrefixOf (hay.map toLowerChar)

/-- Drop a case-insensitive literal from the head of `cs`; `none` when it is absent. -/
def ciDropStart (lit : String) (cs : List Char) : Option (List Char) :=
  if ciBeginsWith lit cs then some (cs.drop lit.toList.length) else none

/-- Truthiness of an optional Python string, as the source evaluates it in
conditions: present and different from the empty string. -/
def truthyS : Option String → Bool
  | some s => s != ""
  | none => false

/-- Numeric value of a run of decimal digits. -/
def digitsToNat (ds : List Char) : Nat :=
  ds.foldl (fun n c => n * 10 + (c.toNat - 48)) 0

/-- The leading numeric group shared by the weight, capacity and percentage
regexes: the first maximal digit run in `cs`, optionally extended by a dot
and a further digit run.  Returns the matched token and the remainder of the
input; `none` when no digit occurs.  The regex search is leftmost, and every
later start position inside the same digit run fails or succeeds exactly as
the run start does, so scanning run by run is faithful. -/
def findNumToken : List Char → Option (String × List Char)
  | [] => none
  | c :: cs =>
    if c.isDigit then
      match (c :: cs).dropWhile Char.isDigit with
      | '.' :: d :: t =>
        if d.isDigit then
          some (String.mk ((c :: cs).takeWhile Char.isDigit ++ '.' :: (d :: t).takeWhile Char.isDigit),
                (d :: t).dropWhile Char.isDigit)
        else some (String.mk ((c :: cs).takeWhile Char.isDigit), (c :: cs).dropWhile Char.isDigit)
      | _ => some (String.mk ((c :: cs).takeWhile Char.isDigit), (c :: cs).dropWhile Char.isDigit)
    else findNumToken cs

/-- The unit alternatives of the weight regex, in the order written there. -/
def weightUnits : List String := ["g", "kg", "gram", "kilogram"]

/-- The unit alternatives of the capacity regex, in the order written there. -/
def capacityUnits : List String := ["ml", "l", "liter", "litre", "oz"]

/-- The optional unit group: the first alternative that matches at the head of
`cs`, case-insensitively.  The captured text lower-cased equals the
alternative literal itself. -/
def matchUnitTok (units : List String) (cs : List Char) : Option String :=
  units.find? (fun u => ciBeginsWith u cs)

/-- parse_weight of bulk_pdf_extractor.py; the identically-matching helpers of
simple_web_crawler.py and bulk_web_crawler.py write the same value and unit
into a specs dict.  Models the search for a digit token, optional whitespace
and an optional unit drawn from g, kg, gram, kilogram (case-insensitive);
a missing unit is replaced by the default g, and a string with no digit
yields no entry at all. -/
def parse_weight (value : String) : Option (String × String) :=
  (findNumToken value.toList).map
    (fun p => (p.1, (matchUnitTok weightUnits (p.2.dropWhile isSpaceChar)).getD "g"))

/-- parse_capacity of bulk_pdf_extractor.py and of the two crawlers: like
`parse_weight` with units ml, l, liter, litre, oz and default ml. -/
def parse_capacity (value : String) : Option (String × String) :=
  (findNumToken value.toList).map
    (fun p => (p.1, (matchUnitTok capacityUnits (p.2.dropWhile isSpaceChar)).getD "ml"))

/-- Scan for the leftmost digit run followed by optional whitespace and a
percent sign; the captured value is the digit run as an integer. -/
def pctScan : List Char → Option Int
  | [] => none
  | c :: cs =>
    if c.isDigit then
      match ((c :: cs).dropWhile Char.isDigit).dropWhile isSpaceChar with
      | '%' :: _ => some (Int.ofNat (digitsToNat ((c :: cs).takeWhile Char.isDigit)))
      | _ => pctScan cs
    else pctScan cs

/-- extract_percentage of bulk_pdf_extractor.py: the int before a percent sign. -/
def extract_percentage (text : String) : Option Int := pctScan text.toList

/-- Value of an integer digit run plus a fractional digit run, as a rational. -/
def tokenToRat (ds fs : List Char) : ℚ :=
  (digitsToNat ds : ℚ) + (digitsToNat fs : ℚ) / ((10 : ℚ) ^ fs.length)

/-- Split the remainder after a digit run into the optional fractional digit
run and the rest of the input. -/
def fracSplit (rest : List Char) : List Char × List Char :=
  match rest with
  | '.' :: d :: t =>
    if d.isDigit then ((d :: t).takeWhile Char.isDigit, (d :: t).dropWhile Char.isDigit)
    else ([], rest)
  | _ => ([], rest)

/-- Scan for the leftmost decimal number (digits with optional fraction)
followed by optional whitespace and a percent sign. -/
def pctScanRat : List Char → Option ℚ
  | [] => none
  | c :: cs =>
    if c.isDigit then
      match (fracSplit ((c :: cs).dropWhile Char.isDigit)).2.dropWhile isSpaceChar with
      | '%' :: _ =>
        some (tokenToRat ((c :: cs).takeWhile Char.isDigit)
          (fracSplit ((c :: cs).dropWhile Char.isDigit)).1)
      | _ => pctScanRat cs
    else pctScanRat cs

/-- extract_percentage of simple_web_crawler.py: the decimal number before a
percent sign, converted with float (modelled as a rational). -/
def extract_percentage_web (text : String) : Option ℚ := pctScanRat text.toList

/-- The optional letter d of the recycled-content pattern: consumed when
present. -/
def optD (r1 : List Char) : List Char :=
  match r1 with
  | d :: t => if d == 'd' || d == 'D' then t else r1
  | [] => r1

/-- The optional colon of the same pattern: consumed when present. -/
def optColon (r4 : List Char) : List Char :=
  match r4 with
  | ':' :: t => t
  | _ => r4

/-- The closing digit-and-percent part of the recycled-content pattern. -/
def recTail (r6 : List Char) : Option Int :=
  match r6 with
  | d :: _ =>
    if d.isDigit then
      match (r6.dropWhile Char.isDigit).dropWhile isSpaceChar with
      | '%' :: _ => some (Int.ofNat (digitsToNat (r6.takeWhile Char.isDigit)))
      | _ => none
    else none
  | [] => none

/-- Matcher for the recycled-content pattern of
bulk_pdf_extractor.extract_specs_from_text at one start position:
the literal recycle, an optional d, whitespace, the literal content, an
optional colon, whitespace, a digit run, whitespace and a percent sign
(case-insensitive). -/
def matchRecycledAt (cs : List Char) : Option Int :=
  match ciDropStart "recycle" cs with
  | none => none
  | some r1 =>
    match ciDropStart "content" ((optD r1).dropWhile isSpaceChar) with
    | none => none
    | some r4 => recTail ((optColon r4).dropWhile isSpaceChar)

/-- Leftmost occurrence of the recycled-content pattern. -/
def recScan : List Char → Option Int
  | [] => none
  | c :: cs =>
    match matchRecycledAt (c :: cs) with
    | some v => some v
    | none => recScan cs

/-- The recycled-content clause of bulk_pdf_extractor.extract_specs_from_text. -/
def findRecycledContent (text : String) : Option Int := recScan text.toList

/-- A product record of bulk_pdf_extractor.py: the dict keys a table row or a
text section may populate.  Weight and capacity carry the matched numeric
token. -/
structure Product where
  productName : Option String := none
  description : Option String := none
  materialType : Option String := none
  weight : Option String := none
  weightUnit : Option String := none
  capacity : Option String := none
  capacityUnit : Option String := none
  color : Option String := none
  sku : Option String := none
  recycledContent : Option Int := none
deriving DecidableEq

/-- The keyword lists of the header classification chain in
extract_product_from_table_row, in source order. -/
def nameKeys : List String := ["name", "product", "item", "title"]

def descKeys : List String := ["description", "desc", "details"]

def weightKeys : List String := ["weight", "mass"]

def capacityKeys : List String := ["capacity", "volume", "size"]

def colorKeys : List String := ["color", "colour"]

def skuKeys : List String := ["sku", "code", "ref"]

def recycledKeys : List String := ["recycle", "recycled"]

/-- Does a header cell classify as the NAME column?  (First branch of the
classification chain.) -/
def isNameHeader (header : String) : Bool := hasAnyKeyword (pyLower header) nameKeys

/-- One step of the classification chain of extract_product_from_table_row:
route a non-empty cell through the branch selected by its header. -/
def updateCell (p : Product) (header cell : String) : Product :=
  if isNameHeader header then { p with productName := some (pyStrip cell) }
  else if hasAnyKeyword (pyLower header) descKeys then { p with description := some (pyStrip cell) }
  else if containsTok (pyLower header) "material" then { p with materialType := some (pyStrip cell) }
  else if hasAnyKeyword (pyLower header) weightKeys then
    match parse_weight cell with
    | some vu => { p with weight := some vu.1, weightUnit := some vu.2 }
    | none => p
  else if hasAnyKeyword (pyLower header) capacityKeys then
    match parse_capacity cell with
    | some vu => { p with capacity := some vu.1, capacityUnit := some vu.2 }
    | none => p
  else if hasAnyKeyword (pyLower header) colorKeys then { p with color := some (pyStrip cell) }
  else if hasAnyKeyword (pyLower header) skuKeys then { p with sku := some (pyStrip cell) }
  else if hasAnyKeyword (pyLower header) recycledKeys then
    match extract_percentage cell with
    | some v => if v ≠ 0 then { p with recycledContent := some v } else p
    | none => p
  else p

/-- Process one cell at index `i`: only a truthy cell whose index lies inside
the header row is classified. -/
def applyCell (headers : List String) (i : Nat) (c : Option String) (p : Product) : Product :=
  match c with
  | some s => if i < headers.length ∧ s ≠ "" then updateCell p (headers.getD i "") s else p
  | none => p

/-- The cell loop of extract_product_from_table_row. -/
def extractRowGo (headers : List String) : List (Option String) → Nat → Product → Product
  | [], _, p => p
  | c :: rest, i, p => extractRowGo headers rest (i + 1) (applyCell headers i c p)

/-- extract_product_from_table_row of bulk_pdf_extractor.py: classify every
cell by its header; the row yields a record only when the resulting dict
holds a truthy productName. -/
def extract_product_from_table_row (headers : List String) (row : List (Option String)) :
    Option Product :=
  if row = [] ∨ headers = [] then none
  else
    let p := extractRowGo headers row 0 {}
    if truthyS p.productName then some p else none

/-- The productName assignments of the cell loop in isolation: the value a
cell would leave in the productName key. -/
def nameCell (headers : List String) (i : Nat) (c : Option String) (cur : Option String) :
    Option String :=
  match c with
  | some s =>
    if i < headers.length ∧ s ≠ "" ∧ isNameHeader (headers.getD i "") = true
    then some (pyStrip s) else cur
  | none => cur

/-- Fold of `nameCell` over the row: the productName the cell loop ends with. -/
def nameFold (headers : List String) : List (Option String) → Nat → Option String → Option String
  | [], _, cur => cur
  | c :: rest, i, cur => nameFold headers rest (i + 1) (nameCell headers i c cur)

/-- Some cell of the row is truthy and its header classifies as NAME. -/
def rowHasNameCell (headers : List String) (row : List (Option String)) : Bool :=
  (List.range row.length).any
    (fun i => decide (i < headers.length) && truthyS (row.getD i none)
      && isNameHeader (headers.getD i ""))

/-- process_product_table of bulk_pdf_extractor.py: grids with fewer than two
rows are skipped; the first row with a truthy cell becomes the header
(lower-cased, None cells becoming empty); every later truthy row is a data
row, contributing a record when the row extraction returns one. -/
def process_product_table (table : List (List (Option String))) : List Product :=
  if table.length < 2 then []
  else
    match table.filter (fun r => r.any truthyS) with
    | [] => []
    | hdr :: dataRows =>
      let headers := hdr.map (fun c => match c with | some s => pyLower s | none => "")
      dataRows.filterMap (fun r => extract_product_from_table_row headers r)

/-- The duplicate-removal pass closing extract_product_listings
(bulk_pdf_extractor.py): walk the accumulated records keeping the first
record per lower-cased name, dropping records whose name lowers to the
empty string.  `seen` is the set of lower-cased names already kept. -/
def dedupProducts : List Product → List String → List Product
  | [], _ => []
  | p :: rest, seen =>
    let name := pyLower (p.productName.getD "")
    if name ≠ "" ∧ name ∉ seen then p :: dedupProducts rest (name :: seen)
    else dedupProducts rest seen

/-- The company record assembled by both extract_company_profile variants. -/
structure CompanyData where
  companyName : String
  website : String
  email : Option String
  address : Option String
  phone : Option String
  supplierType : String
  description : Option String
deriving DecidableEq

/-- What the contact-extraction helpers find on one secondary company page
(the DOM query and regex collaborators are out of scope; their results are
the input). -/
structure PageExtract where
  email : Option String
  address : Option String
  phone : Option String
  description : Option String

/-- The email update of simple_web_crawler.crawl_company_page. -/
def upd_email (st : CompanyData) (e : PageExtract) : CompanyData :=
  if truthyS st.email then st else { st with email := e.email }

/-- The address update of the same handler. -/
def upd_address (st : CompanyData) (e : PageExtract) : CompanyData :=
  if truthyS st.address then st else { st with address := e.address }

/-- The phone update of the same handler. -/
def upd_phone (st : CompanyData) (e : PageExtract) : CompanyData :=
  if truthyS st.phone then st else { st with phone := e.phone }

/-- The description update closing the handler: a falsy candidate is ignored;
with a truthy candidate the source compares len(candidate) with
len(stored), which raises TypeError when the stored value is None — the
surrounding handler then returns with the state reached so far, so the
description stays None. -/
def upd_description (st : CompanyData) (e : PageExtract) : CompanyData :=
  match e.description with
  | none => st
  | some d =>
    if d == "" then st
    else
      match st.description with
      | none => st
      | some cur => if cur.length < d.length then { st with description := some d } else st

/-- simple_web_crawler.crawl_company_page as a state transformer; the same
update sequence is bulk_web_crawler.parse_company_page.  `none` stands for
a page whose fetch raised, in which case the handler leaves the state
unchanged.  With a page, the email, address and description updates run in
source order; a TypeError raised by the description comparison is caught
after the three contact-field updates were already applied in place, so
those updates survive it. -/
def crawl_company_page (st : CompanyData) (pg : Option PageExtract) : CompanyData :=
  match pg with
  | none => st
  | some e => upd_description (upd_phone (upd_address (upd_email st e) e) e) e

/-- The company-page loop of crawl_supplier_catalog: process the secondary
company pages in order. -/
def crawlCompanyPages (st : CompanyData) (pgs : List (Option PageExtract)) : CompanyData :=
  pgs.foldl crawl_company_page st

/-- Characters ending the host part of a URL. -/
def isNetlocEnd (c : Char) : Bool := c == '/' || c == '?' || c == '#'

/-- The remainder of a URL after the first scheme separator. -/
def afterScheme : List Char → Option (List Char)
  | ':' :: '/' :: '/' :: rest => some rest
  | _ :: t => afterScheme t
  | [] => none

/-- Model of urllib.parse.urlparse(url).netloc for the URL shapes exercised
here: the text between the scheme separator and the next slash, question
mark or hash; empty when the URL carries no scheme. -/
def netloc (url : String) : String :=
  match afterScheme url.toList with
  | none => ""
  | some rest => String.mk (rest.takeWhile (fun c => !isNetlocEnd c))

/-- Python str.endswith. -/
def endsWithStr (s suffixStr : String) : Bool :=
  suffixStr.toList.reverse.isPrefixOf s.toList.reverse

/-- simple_web_crawler.is_same_domain: the host of `url` equals the start
host `base` or is a subdomain of it. -/
def is_same_domain (base url : String) : Bool :=
  let d := netloc url
  d == base || endsWithStr d ("." ++ base)

/-- Model of urllib.parse.urljoin for the URL shapes exercised here: an
absolute href (one with a scheme) is returned unchanged, a root-relative
href is attached to the scheme and host of the base, and any other href is
appended to the base. -/
def urljoin (base href : String) : String :=
  match afterScheme href.toList with
  | some _ => href
  | none =>
    match href.toList with
    | '/' :: _ =>
      match afterScheme base.toList with
      | some rest =>
        String.mk (base.toList.take
          (base.toList.length - rest.length + (rest.takeWhile (fun c => !isNetlocEnd c)).length))
          ++ href
      | none => href
    | _ => base ++ href

/-- simple_web_crawler.is_product_link: href rejected by the skip patterns,
accepted by the product indicators (substring tests on the lowered href). -/
def is_product_link_simple (href : String) : Bool :=
  let h := pyLower href
  if ["mailto:", "tel:", "#", "javascript:", ".pdf", ".jpg", ".png", ".css", ".js"].any
      (fun p => containsTok h p) then false
  else ["product", "bottle", "container", "jar", "cap", "closure", "packaging"].any
      (fun p => containsTok h p)

/-- bulk_web_crawler.is_product_link: the same test with the shorter skip and
indicator lists of that file. -/
def is_product_link_bulk (href : String) : Bool :=
  let h := pyLower href
  if ["mailto:", "tel:", "#", "javascript:", ".pdf", ".jpg", ".png"].any
      (fun p => containsTok h p) then false
  else ["product", "bottle", "container", "jar", "cap", "closure"].any
      (fun p => containsTok h p)

/-- simple_web_crawler.find_company_info_links: join every selector hit
against the start URL, keep same-domain results, and collapse duplicates
(list(set(..)) — the set order is unspecified in Python; `List.dedup`
stands for one such order). -/
def find_company_info_links (start base : String) (hrefs : List String) : List String :=
  ((hrefs.map (urljoin start)).filter (fun u => is_same_domain base u)).dedup

/-- simple_web_crawler.find_product_links: filter the selector hits by
is_product_link, join, keep same-domain results, collapse duplicates. -/
def find_product_links_simple (start base : String) (hrefs : List String) : List String :=
  (((hrefs.filter is_product_link_simple).map (urljoin start)).filter
    (fun u => is_same_domain base u)).dedup

/-- What the name selectors of extract_product_data find on one product page
(DOM querying is out of scope; the hit texts are the input). -/
structure ProductPage where
  nameCandidates : List String

/-- A product record of the web crawlers, reduced to the fields the claims
touch: the extracted name and the page URL.  The spec fields (material,
weight, images, ...) are populated by the same call but play no role in any
name-identity or counting claim. -/
structure WebProduct where
  productName : String
  sourceUrl : String
deriving DecidableEq

/-- extract_by_selectors of simple_web_crawler.py: the first selector hit
whose text is truthy and longer than 2 characters. -/
def extract_by_selectors (cands : List String) : Option String :=
  cands.find? (fun t => t != "" && decide (2 < t.length))

/-- extract_product_data of simple_web_crawler.py: no record without a
product name. -/
def extract_product_data (pg : ProductPage) (url : String) : Option WebProduct :=
  match extract_by_selectors pg.nameCandidates with
  | none => none
  | some n => some { productName := n, sourceUrl := url }

/-- simple_web_crawler.crawl_product_page without its visited-set update
(kept in the loop model): fetch, extract, and keep the record only when a
name was found; a raised fetch (`none`) contributes nothing. -/
def crawl_product_page (fetch : String → Option ProductPage) (url : String) :
    Option WebProduct :=
  match fetch url with
  | none => none
  | some pg => extract_product_data pg url

/-- The product-page loop of crawl_supplier_catalog: for every link not yet
visited, mark it visited, fetch it (first component: the URLs actually
requested) and collect the extracted records (second component). -/
def productCrawl (fetch : String → Option ProductPage) (visited : List String) :
    List String → List String × List WebProduct
  | [] => ([], [])
  | u :: rest =>
    if u ∈ visited then productCrawl fetch visited rest
    else
      let r := productCrawl fetch (u :: visited) rest
      match crawl_product_page fetch u with
      | some p => (u :: r.1, p :: r.2)
      | none => (u :: r.1, r.2)

/-- What the main page yields: the company-profile extracts made on it and
the href lists its selectors return. -/
structure MainPage where
  companyName : String
  email : Option String
  address : Option String
  phone : Option String
  description : Option String
  companyHrefs : List String
  productHrefs : List String

/-- One crawl session of simple_web_crawler.py: the start URL, the seed
fetch (Except.error models a raised request) and the fetch behaviour of
every secondary page. -/
structure Web where
  start : String
  seed : Except String MainPage
  companyPage : String → Option PageExtract
  productPage : String → Option ProductPage

/-- extract_company_profile of simple_web_crawler.py applied to the main
page: the dict update that fills company_data. -/
def extract_company_profile (mp : MainPage) (url : String) : CompanyData :=
  { companyName := mp.companyName, website := url, email := mp.email,
    address := mp.address, phone := mp.phone, supplierType := "Packaging",
    description := mp.description }

/-- The at most 3 company-info pages the session visits. -/
def sessionCompanyLinks (w : Web) : List String :=
  match w.seed with
  | Except.error _ => []
  | Except.ok mp => (find_company_info_links w.start (netloc w.start) mp.companyHrefs).take 3

/-- The at most 20 product links the session iterates over. -/
def sessionProductLinks (w : Web) : List String :=
  match w.seed with
  | Except.error _ => []
  | Except.ok mp => (find_product_links_simple w.start (netloc w.start) mp.productHrefs).take 20

/-- The product-page loop of the session, started with an empty visited set. -/
def sessionProductRun (w : Web) : List String × List WebProduct :=
  productCrawl w.productPage [] (sessionProductLinks w)

/-- Every URL the session passes to session.get, in order: the seed, the
company-info pages, then the product pages. -/
def sessionFetchTrace (w : Web) : List String :=
  w.start :: (sessionCompanyLinks w ++ (sessionProductRun w).1)

/-- The result envelope printed by every variant. -/
structure ResultEnvelope (σ π : Type) where
  success : Bool
  supplierData : Option σ
  productsData : Option (List π)
  totalProducts : Option Nat
  error : Option String

/-- crawl_supplier_catalog of simple_web_crawler.py: a raised seed fetch
becomes the failure envelope; otherwise company profile, company pages,
product pages, then the success envelope.  The per-page handlers inside the
loops never reach this level. -/
def crawl_supplier_catalog (w : Web) : ResultEnvelope CompanyData WebProduct :=
  match w.seed with
  | Except.error e =>
    { success := false, supplierData := none, productsData := none,
      totalProducts := none, error := some ("Crawling failed: " ++ e) }
  | Except.ok mp =>
    let st0 := extract_company_profile mp w.start
    let st1 := (sessionCompanyLinks w).foldl
      (fun st u => crawl_company_page st (w.companyPage u)) st0
    let ps := (sessionProductRun w).2
    { success := true, supplierData := some st1, productsData := some ps,
      totalProducts := some ps.length, error := none }

/-- bulk_pdf_extractor.extract_all_data: the try-block runs the company and
product extraction and assembles the success dict; any raised step maps to
the failure dict.  `r` carries the outcome of the steps: Except.error when
decoding or page access raised, Except.ok with the company record and the
accumulated (pre-dedup) product candidates, to which the closing
duplicate-removal pass of extract_product_listings is applied. -/
def extract_all_data (r : Except String (CompanyData × List Product)) :
    ResultEnvelope CompanyData Product :=
  match r with
  | Except.error e =>
    { success := false, supplierData := none, productsData := none,
      totalProducts := none, error := some ("PDF extraction failed: " ++ e) }
  | Except.ok cp =>
    let ps := dedupProducts cp.2 []
    { success := true, supplierData := some cp.1, productsData := some ps,
      totalProducts := some ps.length, error := none }

/-- bulk_web_crawler.run_crawler: result assembly from the spider state. -/
def run_crawler (r : Except String (CompanyData × List WebProduct)) :
    ResultEnvelope CompanyData WebProduct :=
  match r with
  | Except.error e =>
    { success := false, supplierData := none, productsData := none,
      totalProducts := none, error := some e }
  | Except.ok cp =>
    { success := true, supplierData := some cp.1, productsData := some cp.2,
      totalProducts := some cp.2.length, error := none }

/-- The product-link loop of bulk_web_crawler.parse: links not yet in the
visited set are marked, joined against the response URL and followed. -/
def bulkProductSeq (respUrl : String) (visited : List String) : List String → List String
  | [] => []
  | u :: rest =>
    if u ∈ visited then bulkProductSeq respUrl visited rest
    else urljoin respUrl u :: bulkProductSeq respUrl (u :: visited) rest

/-- bulk_web_crawler.find_product_links: filter the hrefs by is_product_link
and collapse duplicates; no domain check. -/
def find_product_links_bulk (hrefs : List String) : List String :=
  (hrefs.filter is_product_link_bulk).dedup

/-- Every URL bulk_web_crawler.parse follows from the catalog page: up to 3
company links joined against the response URL (no domain check, no visited
set), then up to 50 product links through the visited set (no domain
check). -/
def bulkParseFollows (respUrl : String) (companyHrefs productHrefs : List String) :
    List String :=
  (companyHrefs.take 3).map (urljoin respUrl)
    ++ bulkProductSeq respUrl [] ((find_product_links_bulk productHrefs).take 50)

/-- ASCII cased character: one that owns a case. -/
def isCasedAscii (c : Char) : Bool := c.isLower || c.isUpper

/-- Python str.isupper restricted to ASCII: at least one cased character and
no lower-case one. -/
def pyIsUpper (s : String) : Bool :=
  s.toList.any isCasedAscii && s.toList.all (fun c => !c.isLower)

/-- Worker for Python str.title: a letter is upper-cased when the previous
character is not a letter, lower-cased otherwise. -/
def pyTitleGo : Bool → List Char → List Char
  | _, [] => []
  | prevAlpha, c :: cs =>
    if c.isAlpha then
      (if prevAlpha then toLowerChar c else toUpperChar c) :: pyTitleGo true cs
    else c :: pyTitleGo false cs

/-- Python str.title (ASCII model). -/
def pyTitle (s : String) : String := String.mk (pyTitleGo false s.toList)

/-- Python str.split on the newline character, keeping empty pieces. -/
def splitNL : List Char → List (List Char)
  | [] => [[]]
  | c :: t =>
    if c = '\n' then [] :: splitNL t
    else
      match splitNL t with
      | l :: ls => (c :: l) :: ls
      | [] => [[c]]

/-- The line list both company-name extractors build: split on newlines,
strip each line, keep the non-blank ones. -/
def linesOf (text : String) : List String :=
  ((splitNL text.toList).map (fun l => pyStrip (String.mk l))).filter (fun l => l != "")

/-- The legal-entity markers of extract_company_name, in source order. -/
def legalMarkers : List String := ["ltd", "inc", "corp", "company", "limited"]

/-- The first loop of bulk_pdf_extractor.extract_company_name over the first
10 lines: skip lines shorter than 3 or longer than 80 characters; return a
line holding a legal-entity marker, or an all-caps line longer than 5
characters title-cased — whichever comes first, checked per line in this
order. -/
def companyNameScan : List String → Option String
  | [] => none
  | l :: rest =>
    if l.length < 3 ∨ l.length > 80 then companyNameScan rest
    else if legalMarkers.any (fun m => containsTok (pyLower l) m) then some l
    else if pyIsUpper l && decide (5 < l.length) then some (pyTitle l)
    else companyNameScan rest

/-- The fallback loop of extract_company_name over the first 5 lines: the
first line of length strictly between 5 and 50. -/
def companyNameFallback : List String → Option String
  | [] => none
  | l :: rest =>
    if 5 < l.length ∧ l.length < 50 then some l else companyNameFallback rest

/-- bulk_pdf_extractor.extract_company_name. -/
def extract_company_name (text : String) : String :=
  match companyNameScan ((linesOf text).take 10) with
  | some n => n
  | none =>
    match companyNameFallback ((linesOf text).take 5) with
    | some n => n
    | none => "Unknown Company"

/-- The company-name fallback chain exactly as the claim words it: a line
containing a legal-entity marker wins; else an all-caps line longer than 5
characters, title-cased; else the first line of length 5 to 49 among the
first 5 lines; else the fixed placeholder.  Written from the claim, to be
compared against `extract_company_name`. -/
def specCompanyName (text : String) : String :=
  match (linesOf text).find? (fun l => legalMarkers.any (fun m => containsTok (pyLower l) m)) with
  | some l => l
  | none =>
    match (linesOf text).find? (fun l => pyIsUpper l && decide (5 < l.length)) with
    | some l => pyTitle l
    | none =>
      match ((linesOf text).take 5).find?
          (fun l => decide (5 ≤ l.length) && decide (l.length ≤ 49)) with
      | some l => l
      | none => "Unknown Company"

/-- The verdict one line of the first loop of extract_company_name produces:
nothing for a skipped or unmatched line, the line itself for a marker hit,
the title-cased line for an all-caps hit. -/
def lineHit (l : String) : Option String :=
  if l.length < 3 ∨ l.length > 80 then none
  else if legalMarkers.any (fun m => containsTok (pyLower l) m) then some l
  else if pyIsUpper l && decide (5 < l.length) then some (pyTitle l)
  else none

/-- The amended company-name chain: one interleaved pass over the first 10
lines taking the first per-line hit (marker first, then all-caps, checked
line by line), then the length-6-to-49 fallback over the first 5 lines,
then the placeholder. -/
def amendedCompanyName (text : String) : String :=
  match ((linesOf text).take 10).findSome? lineHit with
  | some n => n
  | none =>
    match ((linesOf text).take 5).find? (fun l => decide (5 < l.length ∧ l.length < 50)) with
    | some n => n
    | none => "Unknown Company"

/-- Concrete session for the duplicate-name counterexample: two distinct
same-domain product pages both titled Glass Jar. -/
def cexWebC1 : Web :=
  { start := "https://x.com/"
    seed := Except.ok
      { companyName := "X", email := none, address := none, phone := none,
        description := none, companyHrefs := [],
        productHrefs := ["https://x.com/product-a", "https://x.com/product-b"] }
    companyPage := fun _ => none
    productPage := fun _ => some { nameCandidates := ["Glass Jar"] } }

/-- Concrete session for the double-fetch counterexample: one URL that is
both a company-info link and a product link. -/
def cexWebC4 : Web :=
  { start := "https://x.com/"
    seed := Except.ok
      { companyName := "X", email := none, address := none, phone := none,
        description := none,
        companyHrefs := ["https://x.com/about-product"],
        productHrefs := ["https://x.com/about-product"] }
    companyPage := fun _ => none
    productPage := fun _ => none }

/-! Helper lemmas. -/

/-- A string whose first character is a digit always yields a numeric token. -/
theorem findNumToken_isSome_of_digit {c : Char} (t : List Char) (h : c.isDigit = true) :
    (findNumToken (c :: t)).isSome = true := by
  rw [findNumToken, if_pos h]
  split
  · split <;> rfl
  · rfl

/-- The numeric-token search fails exactly on digit-free input. -/
theorem findNumToken_none_iff : ∀ cs : List Char,
    findNumToken cs = none ↔ cs.any Char.isDigit = false
  | [] => by simp [findNumToken]
  | c :: t => by
    by_cases h : c.isDigit = true
    · constructor
      · intro hn
        have hs := findNumToken_isSome_of_digit t h
        rw [hn] at hs
        exact absurd hs (by simp)
      · intro ha
        rw [List.any_cons, h] at ha
        exact absurd ha (by simp)
    · have he : findNumToken (c :: t) = findNumToken t := by
        rw [findNumToken, if_neg h]
      rw [he, List.any_cons, Bool.eq_false_iff.mpr h]
      simpa using findNumToken_none_iff t

/-- The percentage scan only produces nonnegative integers. -/
theorem pctScan_nonneg : ∀ (cs : List Char) (v : Int), pctScan cs = some v → 0 ≤ v
  | [], v => by simp [pctScan]
  | c :: t, v => by
    intro h
    rw [pctScan] at h
    by_cases hd : c.isDigit = true
    · rw [if_pos hd] at h
      split at h
      · injection h with h'
        rw [← h']
        exact Int.natCast_nonneg _
      · exact pctScan_nonneg t v h
    · rw [if_neg hd] at h
      exact pctScan_nonneg t v h

/-- A decimal token is a nonnegative rational. -/
theorem tokenToRat_nonneg (ds fs : List Char) : 0 ≤ tokenToRat ds fs := by
  unfold tokenToRat
  positivity

/-- The decimal percentage scan only produces nonnegative rationals. -/
theorem pctScanRat_nonneg : ∀ (cs : List Char) (q : ℚ), pctScanRat cs = some q → 0 ≤ q
  | [], q => by simp [pctScanRat]
  | c :: t, q => by
    intro h
    rw [pctScanRat] at h
    by_cases hd : c.isDigit = true
    · rw [if_pos hd] at h
      split at h
      · injection h with h'
        rw [← h']
        exact tokenToRat_nonneg _ _
      · exact pctScanRat_nonneg t q h
    · rw [if_neg hd] at h
      exact pctScanRat_nonneg t q h

/-- The closing part of the recycled-content pattern is nonnegative. -/
theorem recTail_nonneg (r6 : List Char) (v : Int) (h : recTail r6 = some v) : 0 ≤ v := by
  unfold recTail at h
  repeat' split at h
  all_goals first
    | (injection h with h'
       rw [← h']
       exact Int.natCast_nonneg _)
    | (injection h)

/-- A recycled-content match at one position is a nonnegative integer. -/
theorem matchRecycledAt_nonneg (cs : List Char) (v : Int)
    (h : matchRecycledAt cs = some v) : 0 ≤ v := by
  unfold matchRecycledAt at h
  repeat' split at h
  all_goals first
    | exact recTail_nonneg _ _ h
    | (injection h)

/-- Every recycled-content match is a nonnegative integer. -/
theorem recScan_nonneg : ∀ (cs : List Char) (v : Int), recScan cs = some v → 0 ≤ v
  | [], v => by simp [recScan]
  | c :: t, v => by
    intro h
    rw [recScan] at h
    split at h
    · injection h with h'
      subst h'
      exact matchRecycledAt_nonneg _ _ (by assumption)
    · exact recScan_nonneg t v h

/-- Only the NAME branch of the classification chain writes productName. -/
theorem updateCell_productName (p : Product) (h s : String) :
    (updateCell p h s).productName =
      if isNameHeader h then some (pyStrip s) else p.productName := by
  unfold updateCell
  by_cases hn : isNameHeader h = true
  · rw [if_pos hn, if_pos hn]
  · rw [if_neg hn, if_neg hn]
    repeat' split
    all_goals rfl

/-- The classification chain leaves recycledContent unchanged or writes a
percentage match. -/
theorem updateCell_recycled (p : Product) (h s : String) (v : Int)
    (hv : (updateCell p h s).recycledContent = some v) :
    p.recycledContent = some v ∨ 0 ≤ v := by
  unfold updateCell at hv
  repeat' split at hv
  all_goals first
    | exact Or.inl hv
    | (refine Or.inr ?_
       injection hv with hv'
       subst hv'
       exact pctScan_nonneg _ _ (by assumption))

/-- One cell of the row loop acts on productName exactly as `nameCell`. -/
theorem applyCell_productName (headers : List String) (i : Nat) (c : Option String)
    (p : Product) :
    (applyCell headers i c p).productName = nameCell headers i c p.productName := by
  cases c with
  | none => rfl
  | some s =>
    simp only [applyCell, nameCell]
    by_cases h1 : i < headers.length ∧ s ≠ ""
    · rw [if_pos h1, updateCell_productName]
      by_cases h2 : isNameHeader (headers.getD i "") = true
      · rw [if_pos h2, if_pos ⟨h1.1, h1.2, h2⟩]
      · rw [if_neg h2, if_neg (fun hc => h2 hc.2.2)]
    · rw [if_neg h1, if_neg (fun hc => h1 ⟨hc.1, hc.2.1⟩)]

/-- The row loop computes productName as the fold of `nameCell`. -/
theorem extractRowGo_productName (headers : List String) :
    ∀ (row : List (Option String)) (i : Nat) (p : Product),
      (extractRowGo headers row i p).productName = nameFold headers row i p.productName
  | [], _, _ => rfl
  | c :: rest, i, p => by
    rw [extractRowGo, nameFold, extractRowGo_productName headers rest (i + 1) _,
      applyCell_productName]

/-- One cell of the row loop preserves the recycled-content invariant. -/
theorem applyCell_recycled (headers : List String) (i : Nat) (c : Option String)
    (p : Product) (v : Int) (hv : (applyCell headers i c p).recycledContent = some v) :
    p.recycledContent = some v ∨ 0 ≤ v := by
  cases c with
  | none => exact Or.inl hv
  | some s =>
    simp only [applyCell] at hv
    split at hv
    · exact updateCell_recycled p _ s v hv
    · exact Or.inl hv

/-- The row loop only stores nonnegative recycled-content values. -/
theorem extractRowGo_recycled (headers : List String) :
    ∀ (row : List (Option String)) (i : Nat) (p : Product) (v : Int),
      (extractRowGo headers row i p).recycledContent = some v →
      p.recycledContent = some v ∨ 0 ≤ v
  | [], _, _, v => fun hv => Or.inl hv
  | c :: rest, i, p, v => by
    intro hv
    rw [extractRowGo] at hv
    rcases extractRowGo_recycled headers rest (i + 1) _ v hv with h | h
    · exact applyCell_recycled headers i c p v h
    · exact Or.inr h

/-- With an empty header row no cell ever writes productName. -/
theorem nameFold_no_headers :
    ∀ (row : List (Option String)) (i : Nat) (cur : Option String),
      nameFold [] row i cur = cur
  | [], _, _ => rfl
  | c :: rest, i, cur => by
    rw [nameFold, nameFold_no_headers rest (i + 1)]
    cases c with
    | none => rfl
    | some s => simp [nameCell]

/-- A truthy lower-cased stored name makes the stored field truthy. -/
theorem truthy_of_lower_ne (o : Option String) (h : pyLower (o.getD "") ≠ "") :
    truthyS o = true := by
  cases o with
  | none => exact absurd rfl h
  | some s =>
    simp only [truthyS, bne_iff_ne, ne_eq, decide_eq_true_eq]
    intro hs
    subst hs
    exact h rfl

/-- Every record surviving the duplicate-removal pass has a truthy name. -/
theorem dedupProducts_mem_truthy :
    ∀ (l : List Product) (seen : List String) (p : Product),
      p ∈ dedupProducts l seen → truthyS p.productName = true
  | [], _, _ => by simp [dedupProducts]
  | q :: rest, seen, p => by
    intro hp
    rw [dedupProducts] at hp
    split at hp
    · rcases List.mem_cons.mp hp with h | h
      · subst h
        next hc => exact truthy_of_lower_ne _ hc.1
      · exact dedupProducts_mem_truthy rest _ p h
    · exact dedupProducts_mem_truthy rest seen p hp

/-- The duplicate-removal pass emits pairwise distinct lower-cased names,
none of which was seen before. -/
theorem dedupProducts_nodup :
    ∀ (l : List Product) (seen : List String),
      ((dedupProducts l seen).map (fun p => pyLower (p.productName.getD ""))).Nodup ∧
      ∀ p ∈ dedupProducts l seen, pyLower (p.productName.getD "") ∉ seen
  | [], seen => by simp [dedupProducts]
  | q :: rest, seen => by
    rw [dedupProducts]
    split
    · next hc =>
      obtain ⟨ih1, ih2⟩ := dedupProducts_nodup rest (pyLower (q.productName.getD "") :: seen)
      refine ⟨List.nodup_cons.mpr ⟨?_, ih1⟩, ?_⟩
      · intro hm
        rcases List.mem_map.mp hm with ⟨p, hp, he⟩
        exact (ih2 p hp) (he ▸ List.mem_cons_self _ _)
      · intro p hp
        rcases List.mem_cons.mp hp with h | h
        · subst h
          exact hc.2
        · intro hs
          exact (ih2 p h) (List.mem_cons_of_mem _ hs)
    · obtain ⟨ih1, ih2⟩ := dedupProducts_nodup rest seen
      exact ⟨ih1, fun p hp => ih2 p hp⟩

/-- A product page only yields a record when a name of length above 2 was
found. -/
theorem crawl_product_page_name (fetch : String → Option ProductPage) (u : String)
    (p : WebProduct) (h : crawl_product_page fetch u = some p) :
    2 < p.productName.length := by
  unfold crawl_product_page at h
  cases hf : fetch u with
  | none => rw [hf] at h; simp at h
  | some pg =>
    rw [hf] at h
    dsimp only at h
    unfold extract_product_data at h
    cases he : extract_by_selectors pg.nameCandidates with
    | none => rw [he] at h; simp at h
    | some n =>
      rw [he] at h
      dsimp only at h
      injection h with h'
      subst h'
      have hp := List.find?_some he
      have := (Bool.and_eq_true _ _).mp hp
      simpa using this.2

/-- Every record the product loop collects carries a name of length above 2. -/
theorem productCrawl_products_name (fetch : String → Option ProductPage) :
    ∀ (l visited : List String) (p : WebProduct),
      p ∈ (productCrawl fetch visited l).2 → 2 < p.productName.length
  | [], _, p => by simp [productCrawl]
  | u :: rest, visited, p => by
    intro hp
    rw [productCrawl] at hp
    split at hp
    · exact productCrawl_products_name fetch rest visited p hp
    · cases hc : crawl_product_page fetch u with
      | none =>
        rw [hc] at hp
        exact productCrawl_products_name fetch rest (u :: visited) p hp
      | some q =>
        rw [hc] at hp
        rcases List.mem_cons.mp hp with h | h
        · subst h
          exact crawl_product_page_name fetch u p hc
        · exact productCrawl_products_name fetch rest (u :: visited) p h

/-- No URL the product loop fetches was in the visited set it started with. -/
theorem productCrawl_trace_notin (fetch : String → Option ProductPage) :
    ∀ (l visited : List String) (u : String),
      u ∈ (productCrawl fetch visited l).1 → u ∉ visited
  | [], _, u => by simp [productCrawl]
  | w :: rest, visited, u => by
    intro hu
    rw [productCrawl] at hu
    split at hu
    · exact productCrawl_trace_notin fetch rest visited u hu
    · next hw =>
      cases hc : crawl_product_page fetch w with
      | none =>
        rw [hc] at hu
        rcases List.mem_cons.mp hu with h | h
        · subst h; exact hw
        · intro hv
          exact productCrawl_trace_notin fetch rest (w :: visited) u h
            (List.mem_cons_of_mem _ hv)
      | some q =>
        rw [hc] at hu
        rcases List.mem_cons.mp hu with h | h
        · subst h; exact hw
        · intro hv
          exact productCrawl_trace_notin fetch rest (w :: visited) u h
            (List.mem_cons_of_mem _ hv)

/-- The product loop never fetches a URL twice. -/
theorem productCrawl_trace_nodup (fetch : String → Option ProductPage) :
    ∀ (l visited : List String), ((productCrawl fetch visited l).1).Nodup
  | [], _ => by simp [productCrawl]
  | w :: rest, visited => by
    rw [productCrawl]
    split
    · exact productCrawl_trace_nodup fetch rest visited
    · have hnd := productCrawl_trace_nodup fetch rest (w :: visited)
      have hni : w ∉ (productCrawl fetch (w :: visited) rest).1 := by
        intro hmem
        exact productCrawl_trace_notin fetch rest (w :: visited) w hmem
          (List.mem_cons_self _ _)
      cases hc : crawl_product_page fetch w <;>
        exact List.nodup_cons.mpr ⟨hni, hnd⟩

/-- The product loop only fetches URLs from its link list. -/
theorem productCrawl_trace_sub (fetch : String → Option ProductPage) :
    ∀ (l visited : List String) (u : String),
      u ∈ (productCrawl fetch visited l).1 → u ∈ l
  | [], _, u => by simp [productCrawl]
  | w :: rest, visited, u => by
    intro hu
    rw [productCrawl] at hu
    split at hu
    · exact List.mem_cons_of_mem _ (productCrawl_trace_sub fetch rest visited u hu)
    · cases hc : crawl_product_page fetch w <;> rw [hc] at hu <;>
        (rcases List.mem_cons.mp hu with h | h
         · subst h; exact List.mem_cons_self _ _
         · exact List.mem_cons_of_mem _ (productCrawl_trace_sub fetch rest (w :: visited) u h))

/-- The contact updates act independently: what each one leaves in each
field. -/
theorem upd_email_fields (st : CompanyData) (e : PageExtract) :
    (upd_email st e).email = (if truthyS st.email then st.email else e.email) ∧
    (upd_email st e).address = st.address ∧ (upd_email st e).phone = st.phone ∧
    (upd_email st e).description = st.description := by
  unfold upd_email
  split <;> simp_all

theorem upd_address_fields (st : CompanyData) (e : PageExtract) :
    (upd_address st e).address = (if truthyS st.address then st.address else e.address) ∧
    (upd_address st e).email = st.email ∧ (upd_address st e).phone = st.phone ∧
    (upd_address st e).description = st.description := by
  unfold upd_address
  split <;> simp_all

theorem upd_phone_fields (st : CompanyData) (e : PageExtract) :
    (upd_phone st e).phone = (if truthyS st.phone then st.phone else e.phone) ∧
    (upd_phone st e).email = st.email ∧ (upd_phone st e).address = st.address ∧
    (upd_phone st e).description = st.description := by
  unfold upd_phone
  split <;> simp_all

/-- The description update never touches the contact fields. -/
theorem upd_description_fields (st : CompanyData) (e : PageExtract) :
    (upd_description st e).email = st.email ∧ (upd_description st e).address = st.address ∧
    (upd_description st e).phone = st.phone := by
  unfold upd_description
  repeat' split
  all_goals simp

/-- An unset description survives the description update: either the
candidate is falsy and nothing happens, or the length comparison raises
before any write. -/
theorem upd_description_none (st : CompanyData) (e : PageExtract)
    (h : st.description = none) : (upd_description st e).description = none := by
  unfold upd_description
  repeat' split
  all_goals simp_all

/-- Field characterization of one company-page visit. -/
theorem crawl_company_page_fields (st : CompanyData) (e : PageExtract) :
    (crawl_company_page st (some e)).email =
      (if truthyS st.email then st.email else e.email) ∧
    (crawl_company_page st (some e)).address =
      (if truthyS st.address then st.address else e.address) ∧
    (crawl_company_page st (some e)).phone =
      (if truthyS st.phone then st.phone else e.phone) := by
  unfold crawl_company_page
  obtain ⟨hd1, hd2, hd3⟩ := upd_description_fields (upd_phone (upd_address (upd_email st e) e) e) e
  obtain ⟨hp1, hp2, hp3, _⟩ := upd_phone_fields (upd_address (upd_email st e) e) e
  obtain ⟨ha1, ha2, ha3, _⟩ := upd_address_fields (upd_email st e) e
  obtain ⟨he1, he2, he3, _⟩ := upd_email_fields st e
  refine ⟨?_, ?_, ?_⟩
  · rw [hd1, hp2, ha2, he1]
  · rw [hd2, hp3, ha1, he2]
  · rw [hd3, hp1, ha3, he3]

/-- A truthy email survives one company-page visit. -/
theorem crawl_company_page_email (st : CompanyData) (pg : Option PageExtract)
    (h : truthyS st.email = true) : (crawl_company_page st pg).email = st.email := by
  cases pg with
  | none => rfl
  | some e =>
    rw [(crawl_company_page_fields st e).1, if_pos h]

/-- A truthy address survives one company-page visit. -/
theorem crawl_company_page_address (st : CompanyData) (pg : Option PageExtract)
    (h : truthyS st.address = true) : (crawl_company_page st pg).address = st.address := by
  cases pg with
  | none => rfl
  | some e =>
    rw [(crawl_company_page_fields st e).2.1, if_pos h]

/-- A truthy phone survives one company-page visit. -/
theorem crawl_company_page_phone (st : CompanyData) (pg : Option PageExtract)
    (h : truthyS st.phone = true) : (crawl_company_page st pg).phone = st.phone := by
  cases pg with
  | none => rfl
  | some e =>
    rw [(crawl_company_page_fields st e).2.2, if_pos h]

/-- A non-empty stored email survives the whole company-page loop. -/
theorem crawlCompanyPages_email :
    ∀ (pgs : List (Option PageExtract)) (st : CompanyData) (v : String),
      st.email = some v → v ≠ "" → (crawlCompanyPages st pgs).email = some v
  | [], _, _ => fun h _ => h
  | pg :: rest, st, v => fun h hv => by
    have ht : truthyS st.email = true := by
      rw [h]
      simpa [truthyS] using hv
    have hstep : (crawl_company_page st pg).email = st.email :=
      crawl_company_page_email st pg ht
    exact crawlCompanyPages_email rest (crawl_company_page st pg) v (by rw [hstep, h]) hv

/-- A non-empty stored address survives the whole company-page loop. -/
theorem crawlCompanyPages_address :
    ∀ (pgs : List (Option PageExtract)) (st : CompanyData) (v : String),
      st.address = some v → v ≠ "" → (crawlCompanyPages st pgs).address = some v
  | [], _, _ => fun h _ => h
  | pg :: rest, st, v => fun h hv => by
    have ht : truthyS st.address = true := by
      rw [h]
      simpa [truthyS] using hv
    have hstep : (crawl_company_page st pg).address = st.address :=
      crawl_company_page_address st pg ht
    exact crawlCompanyPages_address rest (crawl_company_page st pg) v (by rw [hstep, h]) hv

/-- A non-empty stored phone survives the whole company-page loop. -/
theorem crawlCompanyPages_phone :
    ∀ (pgs : List (Option PageExtract)) (st : CompanyData) (v : String),
      st.phone = some v → v ≠ "" → (crawlCompanyPages st pgs).phone = some v
  | [], _, _ => fun h _ => h
  | pg :: rest, st, v => fun h hv => by
    have ht : truthyS st.phone = true := by
      rw [h]
      simpa [truthyS] using hv
    have hstep : (crawl_company_page st pg).phone = st.phone :=
      crawl_company_page_phone st pg ht
    exact crawlCompanyPages_phone rest (crawl_company_page st pg) v (by rw [hstep, h]) hv

/-- The first loop of extract_company_name is the first per-line hit. -/
theorem companyNameScan_eq_findSome : ∀ ls : List String,
    companyNameScan ls = ls.findSome? lineHit
  | [] => rfl
  | l :: rest => by
    rw [companyNameScan, List.findSome?]
    unfold lineHit
    by_cases h1 : l.length < 3 ∨ l.length > 80
    · rw [if_pos h1, if_pos h1]
      exact companyNameScan_eq_findSome rest
    · rw [if_neg h1, if_neg h1]
      by_cases h2 : legalMarkers.any (fun m => containsTok (pyLower l) m) = true
      · rw [if_pos h2, if_pos h2]
      · rw [if_neg h2, if_neg h2]
        by_cases h3 : (pyIsUpper l && decide (5 < l.length)) = true
        · rw [if_pos h3, if_pos h3]
        · rw [if_neg h3, if_neg h3]
          exact companyNameScan_eq_findSome rest

/-- The fallback loop of extract_company_name is a first-match search. -/
theorem companyNameFallback_eq_find : ∀ ls : List String,
    companyNameFallback ls = ls.find? (fun l => decide (5 < l.length ∧ l.length < 50))
  | [] => rfl
  | l :: rest => by
    rw [companyNameFallback]
    by_cases h : 5 < l.length ∧ l.length < 50
    · rw [if_pos h, List.find?_cons_of_pos _ (by simpa using h)]
    · rw [if_neg h, List.find?_cons_of_neg _ (by simpa using h)]
      exact companyNameFallback_eq_find rest

/-! The claims. -/

/-- Claim C2: parse_weight and parse_capacity locate the first numeric token;
a token with no unit from the fixed set after it gets the default unit g
(ml for capacity), a string with no numeric token yields none, and every
returned unit belongs to the fixed set.  (Both parsers are total functions,
so no input raises.) -/
theorem C2_ok :
    (∀ s : String, parse_weight s = none ↔ s.toList.any Char.isDigit = false) ∧
    (∀ (s tok : String) (rest : List Char),
        findNumToken s.toList = some (tok, rest) →
        matchUnitTok weightUnits (rest.dropWhile isSpaceChar) = none →
        parse_weight s = some (tok, "g")) ∧
    (∀ (s v u : String), parse_weight s = some (v, u) → u ∈ weightUnits) ∧
    (∀ s : String, parse_capacity s = none ↔ s.toList.any Char.isDigit = false) ∧
    (∀ (s tok : String) (rest : List Char),
        findNumToken s.toList = some (tok, rest) →
        matchUnitTok capacityUnits (rest.dropWhile isSpaceChar) = none →
        parse_capacity s = some (tok, "ml")) ∧
    (∀ (s v u : String), parse_capacity s = some (v, u) → u ∈ capacityUnits) := by
  refine ⟨?_, ?_, ?_, ?_, ?_, ?_⟩
  · intro s
    rw [parse_weight, Option.map_eq_none']
    exact findNumToken_none_iff s.toList
  · intro s tok rest h1 h2
    rw [parse_weight, h1]
    simp [h2]
  · intro s v u h
    rw [parse_weight] at h
    cases hf : findNumToken s.toList with
    | none => rw [hf] at h; simp at h
    | some pr =>
      rw [hf] at h
      simp only [Option.map_some'] at h
      injection h with h'
      have h2 := congrArg Prod.snd h'
      simp only at h2
      cases hm : matchUnitTok weightUnits (pr.2.dropWhile isSpaceChar) with
      | some w =>
        rw [hm] at h2
        rw [← h2]
        exact List.mem_of_find?_eq_some hm
      | none =>
        rw [hm] at h2
        rw [← h2]
        simp [weightUnits]
  · intro s
    rw [parse_capacity, Option.map_eq_none']
    exact findNumToken_none_iff s.toList
  · intro s tok rest h1 h2
    rw [parse_capacity, h1]
    simp [h2]
  · intro s v u h
    rw [parse_capacity] at h
    cases hf : findNumToken s.toList with
    | none => rw [hf] at h; simp at h
    | some pr =>
      rw [hf] at h
      simp only [Option.map_some'] at h
      injection h with h'
      have h2 := congrArg Prod.snd h'
      simp only at h2
      cases hm : matchUnitTok capacityUnits (pr.2.dropWhile isSpaceChar) with
      | some w =>
        rw [hm] at h2
        rw [← h2]
        exact List.mem_of_find?_eq_some hm
      | none =>
        rw [hm] at h2
        rw [← h2]
        simp [capacityUnits]

/-- Witness for C2: a bare number gets the default unit in both parsers. -/
theorem C2_witness :
    parse_weight "500" = some ("500", "g") ∧ parse_capacity "250" = some ("250", "ml") :=
  ⟨C2_ok.2.1 "500" "500" [] (by decide) (by decide),
   C2_ok.2.2.2.2.1 "250" "250" [] (by decide) (by decide)⟩

/-- Counterexample to claim C3 as stated: in the grid with header row [name]
and data row [one blank cell], the blank cell is truthy and its header
classifies as NAME, yet the row produces no record — the stored name is the
stripped cell, which is empty, so the record is dropped. -/
theorem C3_counterexample :
    rowHasNameCell ["name"] [some " "] = true ∧
    extract_product_from_table_row ["name"] [some " "] = none ∧
    process_product_table [[some "name"], [some " "]] = [] := by
  decide

/-- Claim C3 (amended): a data row yields a record exactly when the last
NAME-classified truthy cell of the row strips to a non-empty string (the
fold of the productName assignments ends truthy); rows with no such cell
are dropped without any error. -/
theorem C3_amended_ok (headers : List String) (row : List (Option String)) :
    (extract_product_from_table_row headers row).isSome =
      truthyS (nameFold headers row 0 none) := by
  unfold extract_product_from_table_row
  by_cases h : row = [] ∨ headers = []
  · rw [if_pos h]
    rcases h with h | h
    · subst h; rfl
    · subst h
      rw [nameFold_no_headers]
      rfl
  · rw [if_neg h]
    dsimp only
    rw [← extractRowGo_productName headers row 0 {}]
    cases ht : truthyS (extractRowGo headers row 0 {}).productName <;> simp [ht]

/-- Counterexample to claim C8 as stated: a table cell of 150% is stored as
recycledContent 150, above the claimed bound of 100. -/
theorem C8_counterexample :
    (process_product_table [[some "Name", some "Recycled"],
        [some "Glass Jar", some "150%"]]).map Product.recycledContent = [some 150] ∧
    ¬ ((150 : Int) ≤ 100) := by
  decide

/-- Claim C8 (amended): a present recycledContent is a nonnegative number
(the digits before a percent sign); no upper bound is enforced, in any of
the extraction paths that write the field. -/
theorem C8_amended_ok :
    (∀ (headers : List String) (row : List (Option String)) (p : Product),
        extract_product_from_table_row headers row = some p →
        ∀ v : Int, p.recycledContent = some v → 0 ≤ v) ∧
    (∀ (s : String) (v : Int), extract_percentage s = some v → 0 ≤ v) ∧
    (∀ (s : String) (q : ℚ), extract_percentage_web s = some q → 0 ≤ q) ∧
    (∀ (s : String) (v : Int), findRecycledContent s = some v → 0 ≤ v) := by
  refine ⟨?_, ?_, ?_, ?_⟩
  · intro headers row p hp v hv
    unfold extract_product_from_table_row at hp
    by_cases h : row = [] ∨ headers = []
    · rw [if_pos h] at hp
      simp at hp
    · rw [if_neg h] at hp
      dsimp only at hp
      split at hp
      · injection hp with hp'
        subst hp'
        rcases extractRowGo_recycled headers row 0 {} v hv with h0 | h0
        · simp at h0
        · exact h0
      · simp at hp
  · intro s v h
    exact pctScan_nonneg _ v h
  · intro s q h
    exact pctScanRat_nonneg _ q h
  · intro s v h
    exact recScan_nonneg _ v h

/-- Witness for C8 (amended): a concrete percentage is nonnegative. -/
theorem C8_witness : extract_percentage "5%" = some 5 ∧ (0 : Int) ≤ 5 :=
  ⟨by decide, C8_amended_ok.2.1 "5%" 5 (by decide)⟩

/-- Counterexample to claim C7 as stated: on the window ACME WIDGETS
followed by Foo Ltd, the claimed chain lets the legal-entity line Foo Ltd
win, but the source checks line by line and returns the title-cased
all-caps first line. -/
theorem C7_counterexample :
    extract_company_name "ACME WIDGETS\nFoo Ltd" = "Acme Widgets" ∧
    specCompanyName "ACME WIDGETS\nFoo Ltd" = "Foo Ltd" ∧
    extract_company_name "ACME WIDGETS\nFoo Ltd" ≠
      specCompanyName "ACME WIDGETS\nFoo Ltd" := by
  refine ⟨by decide, by decide, by decide⟩

/-- Claim C7 (amended): the company name is chosen by one interleaved pass
over the first 10 non-blank lines, skipping lines shorter than 3 or longer
than 80 characters; per line, a legal-entity marker hit returns the line
and otherwise an all-caps line longer than 5 characters returns it
title-cased; if no line hits, the first of the first 5 lines with length 6
to 49 is returned, else the fixed placeholder. -/
theorem C7_amended_ok (text : String) :
    extract_company_name text = amendedCompanyName text := by
  unfold extract_company_name amendedCompanyName
  rw [companyNameScan_eq_findSome, companyNameFallback_eq_find]

/-- Claim C5: each run of the document extractor and of the simple crawler
produces exactly one of two envelope shapes — success with all three data
fields and no error, or failure with an error and no data fields. -/
theorem C5_ok :
    (∀ r : Except String (CompanyData × List Product),
      ((extract_all_data r).success = true ∧ (extract_all_data r).error = none ∧
        (extract_all_data r).supplierData.isSome = true ∧
        (extract_all_data r).productsData.isSome = true ∧
        (extract_all_data r).totalProducts.isSome = true) ∨
      ((extract_all_data r).success = false ∧ (extract_all_data r).error.isSome = true ∧
        (extract_all_data r).supplierData = none ∧
        (extract_all_data r).productsData = none ∧
        (extract_all_data r).totalProducts = none)) ∧
    (∀ w : Web,
      ((crawl_supplier_catalog w).success = true ∧
        (crawl_supplier_catalog w).error = none ∧
        (crawl_supplier_catalog w).supplierData.isSome = true ∧
        (crawl_supplier_catalog w).productsData.isSome = true ∧
        (crawl_supplier_catalog w).totalProducts.isSome = true) ∨
      ((crawl_supplier_catalog w).success = false ∧
        (crawl_supplier_catalog w).error.isSome = true ∧
        (crawl_supplier_catalog w).supplierData = none ∧
        (crawl_supplier_catalog w).productsData = none ∧
        (crawl_supplier_catalog w).totalProducts = none)) := by
  constructor
  · intro r
    cases r with
    | error e => right; simp [extract_all_data]
    | ok cp => left; simp [extract_all_data]
  · intro w
    cases hs : w.seed with
    | error e => right; simp [crawl_supplier_catalog, hs]
    | ok mp => left; simp [crawl_supplier_catalog, hs]

/-- Claim C9: in every success envelope of the three variants, totalProducts
is the length of productsData. -/
theorem C9_ok :
    (∀ r : Except String (CompanyData × List Product),
        (extract_all_data r).success = true →
        (extract_all_data r).totalProducts =
          some ((extract_all_data r).productsData.getD []).length) ∧
    (∀ w : Web,
        (crawl_supplier_catalog w).success = true →
        (crawl_supplier_catalog w).totalProducts =
          some ((crawl_supplier_catalog w).productsData.getD []).length) ∧
    (∀ r : Except String (CompanyData × List WebProduct),
        (run_crawler r).success = true →
        (run_crawler r).totalProducts =
          some ((run_crawler r).productsData.getD []).length) := by
  refine ⟨?_, ?_, ?_⟩
  · intro r hr
    cases r with
    | error e => simp [extract_all_data] at hr
    | ok cp => simp [extract_all_data]
  · intro w hw
    cases hs : w.seed with
    | error e => simp [crawl_supplier_catalog, hs] at hw
    | ok mp => simp [crawl_supplier_catalog, hs]
  · intro r hr
    cases r with
    | error e => simp [run_crawler] at hr
    | ok cp => simp [run_crawler]

/-- Witness for C9: a success envelope with an empty product list reports
zero total products. -/
theorem C9_witness :
    (extract_all_data (Except.ok
        (⟨"C", "w", none, none, none, "Packaging", none⟩, []))).totalProducts =
      some ((extract_all_data (Except.ok
        (⟨"C", "w", none, none, none, "Packaging", none⟩, []))).productsData.getD []).length :=
  C9_ok.1 _ (by decide)

/-- Counterexample to claim C1 as stated: a simple-crawler session with two
distinct same-domain product pages both titled Glass Jar ends with two
records of equal productName in the final productsData. -/
theorem C1_counterexample :
    ((crawl_supplier_catalog cexWebC1).productsData).map
      (fun l => l.map WebProduct.productName) = some ["Glass Jar", "Glass Jar"] := by
  decide

/-- Claim C1 (amended): in the document variant the final list only holds
records with truthy names and pairwise distinct lower-cased names; in the
web variant every stored record has a non-empty productName, but no
name-based duplicate removal is applied, so equal names can repeat. -/
theorem C1_amended_ok :
    (∀ (r : Except String (CompanyData × List Product)) (ps : List Product) (p : Product),
        (extract_all_data r).productsData = some ps → p ∈ ps →
        truthyS p.productName = true) ∧
    (∀ (r : Except String (CompanyData × List Product)) (ps : List Product),
        (extract_all_data r).productsData = some ps →
        (ps.map (fun p => pyLower (p.productName.getD ""))).Nodup) ∧
    (∀ (w : Web) (p : WebProduct),
        p ∈ ((crawl_supplier_catalog w).productsData.getD []) → p.productName ≠ "") := by
  refine ⟨?_, ?_, ?_⟩
  · intro r ps p hps hp
    cases r with
    | error e => simp [extract_all_data] at hps
    | ok cp =>
      simp only [extract_all_data] at hps
      injection hps with hps'
      subst hps'
      exact dedupProducts_mem_truthy cp.2 [] p hp
  · intro r ps hps
    cases r with
    | error e => simp [extract_all_data] at hps
    | ok cp =>
      simp only [extract_all_data] at hps
      injection hps with hps'
      subst hps'
      exact (dedupProducts_nodup cp.2 []).1
  · intro w p hp
    cases hs : w.seed with
    | error e => simp [crawl_supplier_catalog, hs] at hp
    | ok mp =>
      simp only [crawl_supplier_catalog, hs, Option.getD_some] at hp
      have hlen := productCrawl_products_name w.productPage (sessionProductLinks w) [] p hp
      intro he
      rw [he] at hlen
      simp at hlen

/-- Witness for C1 (amended): a one-record document run keeps a truthy name. -/
theorem C1_witness :
    truthyS ((⟨some "Jar", none, none, none, none, none, none, none,
        none, none⟩ : Product).productName) = true := by
  refine C1_amended_ok.1
    (Except.ok (⟨"C", "w", none, none, none, "Packaging", none⟩,
      [⟨some "Jar", none, none, none, none, none, none, none, none, none⟩])) _ _ rfl ?_
  decide

/-- Counterexample to claim C4 as stated: the simple crawler fetches the
URL that is both a company link and a product link twice (the visited set
only guards product fetches), and the bulk crawler follows a company href
on a foreign host (it applies no domain check). -/
theorem C4_counterexample :
    (sessionFetchTrace cexWebC4).count "https://x.com/about-product" = 2 ∧
    "https://evil.com/about" ∈ bulkParseFollows "https://x.com/" ["https://evil.com/about"] [] ∧
    is_same_domain (netloc "https://x.com/") "https://evil.com/about" = false := by
  decide

/-- Claim C4 (amended): in the simple crawler the product loop never fetches
a URL twice, and every fetch of the session (seed, company pages, product
pages) stays on the start host or a subdomain of it; a URL may however be
fetched once as a company page and again as a product page, and the bulk
Scrapy variant follows links with no domain check at all. -/
theorem C4_amended_ok :
    (∀ w : Web, ((sessionProductRun w).1).Nodup) ∧
    (∀ (w : Web) (u : String), u ∈ sessionFetchTrace w →
        is_same_domain (netloc w.start) u = true) := by
  constructor
  · intro w
    exact productCrawl_trace_nodup w.productPage (sessionProductLinks w) []
  · intro w u hu
    unfold sessionFetchTrace at hu
    rcases List.mem_cons.mp hu with h | h
    · subst h
      simp [is_same_domain]
    rcases List.mem_append.mp h with h | h
    · cases hs : w.seed with
      | error e => rw [sessionCompanyLinks, hs] at h; simp at h
      | ok mp =>
        rw [sessionCompanyLinks, hs] at h
        dsimp only at h
        have h2 := List.take_subset 3 _ h
        rw [find_company_info_links] at h2
        have h3 := List.mem_dedup.mp h2
        exact (List.mem_filter.mp h3).2
    · have h1 := productCrawl_trace_sub w.productPage (sessionProductLinks w) [] u h
      cases hs : w.seed with
      | error e => rw [sessionProductLinks, hs] at h1; simp at h1
      | ok mp =>
        rw [sessionProductLinks, hs] at h1
        dsimp only at h1
        have h2 := List.take_subset 20 _ h1
        rw [find_product_links_simple] at h2
        have h3 := List.mem_dedup.mp h2
        exact (List.mem_filter.mp h3).2

/-- Witness for C4 (amended): the seed fetch of the concrete session is
same-domain. -/
theorem C4_witness :
    is_same_domain (netloc cexWebC4.start) "https://x.com/" = true :=
  C4_amended_ok.2 cexWebC4 "https://x.com/" (by decide)

/-- Claim C6: an email (likewise address, phone) already set to a non-empty
value survives every later company-info page of the session unchanged.
(The contact extractors only ever produce absent or non-empty values, so a
set field is always non-empty.) -/
theorem C6_ok :
    (∀ (st : CompanyData) (pgs : List (Option PageExtract)) (v : String),
        st.email = some v → v ≠ "" → (crawlCompanyPages st pgs).email = some v) ∧
    (∀ (st : CompanyData) (pgs : List (Option PageExtract)) (v : String),
        st.address = some v → v ≠ "" → (crawlCompanyPages st pgs).address = some v) ∧
    (∀ (st : CompanyData) (pgs : List (Option PageExtract)) (v : String),
        st.phone = some v → v ≠ "" → (crawlCompanyPages st pgs).phone = some v) :=
  ⟨fun st pgs v h hv => crawlCompanyPages_email pgs st v h hv,
   fun st pgs v h hv => crawlCompanyPages_address pgs st v h hv,
   fun st pgs v h hv => crawlCompanyPages_phone pgs st v h hv⟩

/-- Witness for C6: a set email survives a page offering a different one. -/
theorem C6_witness :
    (crawlCompanyPages
        ⟨"C", "w", some "a@b.co", none, none, "Packaging", none⟩
        [some ⟨some "z@z.co", some "9 High Road AB1 2CD", some "555-123-4567",
          some "another description"⟩]).email = some "a@b.co" :=
  C6_ok.1 _ _ "a@b.co" rfl (by decide)

/-- Claim C10: when the stored description is still None, a secondary
company page never replaces it — a truthy candidate makes the length
comparison raise and the handler swallows it, a falsy one is skipped — and
the email, address and phone updates of the same call persist. -/
theorem C10_ok (st : CompanyData) (e : PageExtract) (hd : st.description = none) :
    (crawl_company_page st (some e)).description = none ∧
    (crawl_company_page st (some e)).email =
      (if truthyS st.email then st.email else e.email) ∧
    (crawl_company_page st (some e)).address =
      (if truthyS st.address then st.address else e.address) ∧
    (crawl_company_page st (some e)).phone =
      (if truthyS st.phone then st.phone else e.phone) := by
  obtain ⟨h1, h2, h3⟩ := crawl_company_page_fields st e
  refine ⟨?_, h1, h2, h3⟩
  show (upd_description (upd_phone (upd_address (upd_email st e) e) e) e).description = none
  apply upd_description_none
  rw [(upd_phone_fields _ e).2.2.2, (upd_address_fields _ e).2.2.2,
    (upd_email_fields st e).2.2.2, hd]

/-- Witness for C10: a page with a candidate description leaves an unset
description unset while filling the empty email. -/
theorem C10_witness :
    (crawl_company_page
        ⟨"C", "w", none, none, none, "Packaging", none⟩
        (some ⟨some "z@z.co", none, none, some "a long candidate description"⟩)).description =
      none :=
  (C10_ok ⟨"C", "w", none, none, none, "Packaging", none⟩
    ⟨some "z@z.co", none, none, some "a long candidate description"⟩ rfl).1
